import Mathlib

/-!
Shallow embedding of the arceos memory allocators:
- `EarlyAllocator` from `modules/bump_allocator/src/lib.rs` (double-ended
  early allocator: bytes forward from `start`, pages backward from `end`);
- `BumpAllocator` and `LabByteAllocator` from `labs/lab_allocator/src/lib.rs`
  (pattern-aware head/tail bump allocator and the metadata/data composite).

Rust `usize` values are embedded as `Nat`. The two `checked_add`/`checked_sub`
call sites of the source are embedded as fallible operations: `checked_add`
fails exactly when the mathematical sum does not fit in 64 bits, and
`checked_sub` fails exactly on underflow, mirroring `usize` semantics.
Unchecked `usize` arithmetic (which panics on overflow in the source) is
embedded as plain `Nat` arithmetic.

The bit-mask alignment idioms of the source are embedded arithmetically:
for a power-of-two `align`, `x & !(align - 1)` clears the low bits of `x`,
which on values below `2^64` equals `x - x % align` (`alignDown`), and
`(x + align - 1) & !(align - 1)` is `alignUp`.
-/

namespace AllocSpec

/-- Rust `core::alloc::Layout`: an allocation request's size and alignment.
(The Rust type guarantees `align` is a power of two, hence nonzero; theorems
that need it take `0 < align` as a hypothesis.) -/
structure Layout where
  size : Nat
  align : Nat
deriving DecidableEq, Repr

/-- The two error values of `allocator::AllocError` used by this code. -/
inductive AllocError where
  | NoMemory
  | MemoryOverlap
deriving DecidableEq, Repr

/-- `usize` values are below `2 ^ 64`. -/
def USIZE_BOUND : Nat := 2 ^ 64

/-- Embeds `usize::checked_add`: `none` exactly when the sum overflows. -/
def checked_add (a b : Nat) : Option Nat :=
  if a + b < USIZE_BOUND then some (a + b) else none

/-- Embeds `usize::checked_sub`: `none` exactly on underflow. -/
def checked_sub (a b : Nat) : Option Nat :=
  if b ≤ a then some (a - b) else none

/-- Embeds `x & !(a - 1)` for power-of-two `a`: round `x` down to a multiple
of `a` by clearing the low bits, i.e. subtract `x % a`. -/
def alignDown (x a : Nat) : Nat := x - x % a

/-- Embeds `(x + a - 1) & !(a - 1)` for power-of-two `a`: round `x` up to a
multiple of `a`. -/
def alignUp (x a : Nat) : Nat := alignDown (x + a - 1) a

/-! ## EarlyAllocator (modules/bump_allocator/src/lib.rs)

`pub struct EarlyAllocator<const PAGE_SIZE: usize>`. The const generic
`PAGE_SIZE` is passed explicitly (as `PS`) to the operations that use it.
The Rust field `end` is named `end_` here (`end` is a Lean keyword). -/

structure EarlyState where
  start : Nat
  end_ : Nat
  b_pos : Nat
  p_pos : Nat
  b_count : Nat
deriving DecidableEq, Repr

/-- `EarlyAllocator::new()`. -/
def EarlyState.new : EarlyState := ⟨0, 0, 0, 0, 0⟩

/-- `BaseAllocator::init` for `EarlyAllocator`. -/
def earlyInit (s : EarlyState) (start size : Nat) : EarlyState :=
  { s with start := start, b_pos := start, end_ := start + size, p_pos := start + size }

/-- `BaseAllocator::add_memory` for `EarlyAllocator`: `Err(AllocError::NoMemory)`. -/
def earlyAddMemory (s : EarlyState) (start size : Nat) : Except AllocError Unit × EarlyState :=
  (.error .NoMemory, s)

/-- `ByteAllocator::alloc` for `EarlyAllocator`. Returns the allocated address
(the source wraps it in a `NonNull<u8>`) together with the updated state. -/
def earlyAlloc (s : EarlyState) (layout : Layout) : Except AllocError Nat × EarlyState :=
  let align := layout.align
  let size := layout.size
  let alloc_start := alignUp s.b_pos align
  match checked_add alloc_start size with
  | none => (.error .NoMemory, s)
  | some alloc_end =>
    if alloc_end > s.p_pos then
      (.error .MemoryOverlap, s)
    else
      (.ok alloc_start, { s with b_pos := alloc_end, b_count := s.b_count + 1 })

/-- `ByteAllocator::dealloc` for `EarlyAllocator` (ignores position and layout). -/
def earlyDealloc (s : EarlyState) : EarlyState :=
  if s.b_count = 0 then s
  else
    let c := s.b_count - 1
    if c = 0 then { s with b_count := c, b_pos := s.start }
    else { s with b_count := c }

def earlyTotalBytes (s : EarlyState) : Nat := s.end_ - s.start

def earlyUsedBytes (s : EarlyState) : Nat := s.b_pos - s.start

def earlyAvailableBytes (s : EarlyState) : Nat := s.p_pos - s.b_pos

/-- `PageAllocator::alloc_pages` for `EarlyAllocator<PS>`. -/
def earlyAllocPages (PS : Nat) (s : EarlyState) (num_pages align_pow2 : Nat) :
    Except AllocError Nat × EarlyState :=
  let align := 2 ^ align_pow2
  let size := num_pages * PS
  let alloc_end := s.p_pos
  match checked_sub alloc_end size with
  | none => (.error .NoMemory, s)
  | some a =>
    let alloc_start := alignDown a align
    if alloc_start < s.b_pos then
      (.error .MemoryOverlap, s)
    else
      (.ok alloc_start, { s with p_pos := alloc_start })

/-- `PageAllocator::dealloc_pages`: pages are never freed. -/
def earlyDeallocPages (s : EarlyState) : EarlyState := s

def earlyTotalPages (PS : Nat) (s : EarlyState) : Nat := (s.end_ - s.start) / PS

def earlyUsedPages (PS : Nat) (s : EarlyState) : Nat := (s.end_ - s.p_pos) / PS

def earlyAvailablePages (PS : Nat) (s : EarlyState) : Nat := (s.p_pos - s.b_pos) / PS

/-- One call of the `EarlyAllocator` API after `init` (allocation results
are discarded; only the state evolution matters for reachability). -/
inductive EarlyOp where
  | allocBytes (layout : Layout)
  | deallocBytes
  | allocPages (num_pages align_pow2 : Nat)
  | deallocPages
  | addMemory (start size : Nat)
deriving DecidableEq, Repr

/-- State transition of one `EarlyOp`. -/
def earlyStep (PS : Nat) (s : EarlyState) : EarlyOp → EarlyState
  | .allocBytes layout => (earlyAlloc s layout).2
  | .deallocBytes => earlyDealloc s
  | .allocPages np ap2 => (earlyAllocPages PS s np ap2).2
  | .deallocPages => earlyDeallocPages s
  | .addMemory st sz => (earlyAddMemory s st sz).2

/-- Run a sequence of `EarlyOp`s. -/
def earlyRun (PS : Nat) (s : EarlyState) (ops : List EarlyOp) : EarlyState :=
  ops.foldl (earlyStep PS) s

/-- Well-formedness of an op's arguments: Rust's `Layout` type guarantees a
nonzero (power-of-two) alignment; page ops have no such obligation. -/
def EarlyOpWF : EarlyOp → Prop
  | .allocBytes layout => 0 < layout.align
  | _ => True

instance : DecidablePred EarlyOpWF := fun op =>
  match op with
  | .allocBytes layout => inferInstanceAs (Decidable (0 < layout.align))
  | .deallocBytes => inferInstanceAs (Decidable True)
  | .allocPages _ _ => inferInstanceAs (Decidable True)
  | .deallocPages => inferInstanceAs (Decidable True)
  | .addMemory _ _ => inferInstanceAs (Decidable True)

/-- The cursor ordering of `EarlyAllocator`'s region. -/
def EarlyInv (s : EarlyState) : Prop :=
  s.start ≤ s.b_pos ∧ s.b_pos ≤ s.p_pos ∧ s.p_pos ≤ s.end_

instance : DecidablePred EarlyInv := fun s =>
  inferInstanceAs (Decidable (_ ∧ _ ∧ _))

/-! ## BumpAllocator (labs/lab_allocator/src/lib.rs) -/

/-- `const MAX_SIZE: usize = 0x7d91000`. -/
def MAX_SIZE : Nat := 0x7d91000

/-- `const CYCLE: usize = 15`. -/
def CYCLE : Nat := 15

/-- `pub struct BumpAllocator`; the Rust field `end` is named `end_`. -/
structure BumpState where
  start : Nat
  end_ : Nat
  head : Nat
  tail : Nat
  counts : Nat
deriving DecidableEq, Repr

/-- `BumpAllocator::new()`. -/
def BumpState.new : BumpState := ⟨0, 0, 0, 0, 0⟩

/-- `BumpAllocator::init` (does not touch `counts`). -/
def bumpInit (s : BumpState) (start size : Nat) : BumpState :=
  { s with start := start, end_ := start + size, head := start, tail := start + size }

/-- `BumpAllocator::alloc_head`. -/
def bumpAllocHead (s : BumpState) (layout : Layout) : Except AllocError Nat × BumpState :=
  let size := layout.size
  let next_head := s.head + size
  if s.tail < next_head then
    (.error .NoMemory, s)
  else
    (.ok (next_head - size), { s with head := next_head })

/-- `BumpAllocator::alloc_tail`: `next_tail` is computed from `end`, not from
the current `tail` (intentional aliasing of tail allocations). -/
def bumpAllocTail (s : BumpState) (layout : Layout) : Except AllocError Nat × BumpState :=
  let size := layout.size
  let next_tail := s.end_ - size
  if next_tail < s.head then
    (.error .NoMemory, s)
  else
    (.ok next_tail, { s with tail := next_tail })

/-- `BumpAllocator::alloc`: increments `counts`, then places by the cycle rule
`(counts - 1) % CYCLE % 2 == 0 → tail`, else head. -/
def bumpAlloc (s : BumpState) (layout : Layout) : Except AllocError Nat × BumpState :=
  let s1 := { s with counts := s.counts + 1 }
  if (s1.counts - 1) % CYCLE % 2 = 0 then
    bumpAllocTail s1 layout
  else
    bumpAllocHead s1 layout

/-- `BumpAllocator::reset_tail`. -/
def bumpResetTail (s : BumpState) : BumpState :=
  { s with tail := s.end_ }

def bumpUsedBytes (s : BumpState) : Nat := (s.head - s.start) + (s.end_ - s.tail)

def bumpTotalBytes (s : BumpState) : Nat := s.end_ - s.start

/-- One call of the `BumpAllocator` API after `init`. -/
inductive BumpOp where
  | alloc (layout : Layout)
  | resetTail
deriving DecidableEq, Repr

/-- Whether an op is an `alloc` call. -/
def BumpOp.isAlloc : BumpOp → Bool
  | .alloc _ => true
  | .resetTail => false

/-- State transition of one `BumpOp`. -/
def bumpStep (s : BumpState) : BumpOp → BumpState
  | .alloc layout => (bumpAlloc s layout).2
  | .resetTail => bumpResetTail s

/-- Run a sequence of `BumpOp`s. -/
def bumpRun (s : BumpState) (ops : List BumpOp) : BumpState :=
  ops.foldl bumpStep s

/-- The cursor ordering of `BumpAllocator`'s region. -/
def BumpInv (s : BumpState) : Prop :=
  s.start ≤ s.head ∧ s.head ≤ s.tail ∧ s.tail ≤ s.end_

instance : DecidablePred BumpInv := fun s =>
  inferInstanceAs (Decidable (_ ∧ _ ∧ _))

/-! ## LabByteAllocator (labs/lab_allocator/src/lib.rs)

The metadata sub-allocator (`TlsfByteAllocator`, an external crate) is opaque:
the composite is parameterized over an arbitrary state type `μ` and an
arbitrary implementation of the byte-allocator interface on it. -/

/-- The byte-allocator interface of the opaque metadata sub-allocator. -/
structure MetaOps (μ : Type) where
  init : μ → Nat → Nat → μ
  alloc : μ → Layout → Except AllocError Nat × μ
  dealloc : μ → Nat → Layout → μ
  total_bytes : μ → Nat
  used_bytes : μ → Nat
  available_bytes : μ → Nat

/-- `pub struct LabByteAllocator`. -/
structure LabState (μ : Type) where
  meta_pool : μ
  data_pool : BumpState

/-- `BaseAllocator::init` for `LabByteAllocator` (the `size` argument is
unused by the source; the partition is fixed by `0x40000` and `MAX_SIZE`). -/
def labInit {μ : Type} (ops : MetaOps μ) (s : LabState μ) (start size : Nat) : LabState μ :=
  let meta_size := 0x40000
  { meta_pool := ops.init s.meta_pool start meta_size,
    data_pool := bumpInit s.data_pool (start + meta_size) (MAX_SIZE - meta_size) }

/-- `BaseAllocator::add_memory` for `LabByteAllocator` is `unimplemented!()`,
which panics: there is no returned value and no successor state, embedded as
`none`. -/
def labAddMemory {μ : Type} (s : LabState μ) (start size : Nat) :
    Option (Except AllocError Unit × LabState μ) :=
  none

/-- `ByteAllocator::alloc` for `LabByteAllocator`: route by alignment. -/
def labAlloc {μ : Type} (ops : MetaOps μ) (s : LabState μ) (layout : Layout) :
    Except AllocError Nat × LabState μ :=
  if layout.align = 8 then
    let r := ops.alloc s.meta_pool layout
    (r.1, { s with meta_pool := r.2 })
  else
    let r := bumpAlloc s.data_pool layout
    (r.1, { s with data_pool := r.2 })

/-- `ByteAllocator::dealloc` for `LabByteAllocator`: metadata frees go to the
meta pool, and a metadata free of size `0x180` additionally resets the data
pool's tail; all other frees are ignored. -/
def labDealloc {μ : Type} (ops : MetaOps μ) (s : LabState μ) (pos : Nat) (layout : Layout) :
    LabState μ :=
  if layout.align = 8 then
    let s1 : LabState μ := { s with meta_pool := ops.dealloc s.meta_pool pos layout }
    if layout.size = 0x180 then
      { s1 with data_pool := bumpResetTail s1.data_pool }
    else s1
  else s

def labTotalBytes {μ : Type} (s : LabState μ) : Nat := MAX_SIZE

def labUsedBytes {μ : Type} (ops : MetaOps μ) (s : LabState μ) : Nat :=
  ops.used_bytes s.meta_pool + bumpUsedBytes s.data_pool

def labAvailableBytes {μ : Type} (ops : MetaOps μ) (s : LabState μ) : Nat :=
  MAX_SIZE - labUsedBytes ops s

/-- A trivial metadata sub-allocator instance, used to instantiate the
opaque parameter in concrete witnesses. -/
def trivMetaOps : MetaOps Unit :=
  ⟨fun _ _ _ => (), fun _ _ => (.error .NoMemory, ()), fun _ _ _ => (),
   fun _ => 0, fun _ => 0, fun _ => 0⟩

/-- A concrete composite state over the trivial metadata sub-allocator. -/
def labS0 : LabState Unit := ⟨(), BumpState.new⟩

/-! ## Alignment arithmetic lemmas -/

lemma alignDown_le (x a : Nat) : alignDown x a ≤ x :=
  Nat.sub_le x (x % a)

lemma alignDown_eq_mul (x a : Nat) : alignDown x a = a * (x / a) := by
  have h := Nat.mod_add_div x a
  unfold alignDown
  omega

lemma alignDown_mod (x a : Nat) : alignDown x a % a = 0 := by
  rw [alignDown_eq_mul]
  exact Nat.mul_mod_right a (x / a)

lemma le_alignUp (x : Nat) {a : Nat} (ha : 0 < a) : x ≤ alignUp x a := by
  have hm : (x + a - 1) % a < a := Nat.mod_lt _ ha
  unfold alignUp alignDown
  omega

lemma checked_add_some {a b c : Nat} (h : checked_add a b = some c) : c = a + b := by
  simp only [checked_add] at h
  split at h
  · exact (Option.some_inj.mp h).symm
  · cases h

lemma checked_sub_some {a b c : Nat} (h : checked_sub a b = some c) : c = a - b ∧ b ≤ a := by
  simp only [checked_sub] at h
  split at h
  · exact ⟨(Option.some_inj.mp h).symm, by assumption⟩
  · cases h

lemma checked_sub_eq_none {a b : Nat} (h : a < b) : checked_sub a b = none := by
  simp only [checked_sub]
  split
  · exfalso; omega
  · rfl

/-! ## Invariant preservation for EarlyAllocator -/

lemma earlyInit_inv (start size : Nat) (s : EarlyState) :
    EarlyInv (earlyInit s start size) := by
  simp [earlyInit, EarlyInv]

lemma earlyAlloc_inv {s : EarlyState} {layout : Layout}
    (ha : 0 < layout.align) (h : EarlyInv s) : EarlyInv (earlyAlloc s layout).2 := by
  obtain ⟨h1, h2, h3⟩ := h
  have hb : s.b_pos ≤ alignUp s.b_pos layout.align := le_alignUp _ ha
  simp only [earlyAlloc]
  split
  next heq => exact ⟨h1, h2, h3⟩
  next ae heq =>
    have hae : ae = alignUp s.b_pos layout.align + layout.size := checked_add_some heq
    split
    · exact ⟨h1, h2, h3⟩
    · refine ⟨?_, ?_, h3⟩ <;> dsimp <;> omega

lemma earlyDealloc_inv {s : EarlyState} (h : EarlyInv s) : EarlyInv (earlyDealloc s) := by
  obtain ⟨h1, h2, h3⟩ := h
  simp only [earlyDealloc]
  split
  · exact ⟨h1, h2, h3⟩
  · split
    · exact ⟨le_refl _, by dsimp; omega, h3⟩
    · exact ⟨h1, h2, h3⟩

lemma earlyAllocPages_inv {PS : Nat} {s : EarlyState} {np ap2 : Nat}
    (h : EarlyInv s) : EarlyInv (earlyAllocPages PS s np ap2).2 := by
  obtain ⟨h1, h2, h3⟩ := h
  simp only [earlyAllocPages]
  split
  next heq => exact ⟨h1, h2, h3⟩
  next a heq =>
    obtain ⟨ha, hle⟩ := checked_sub_some heq
    have hd : alignDown a (2 ^ ap2) ≤ a := alignDown_le _ _
    split
    · exact ⟨h1, h2, h3⟩
    · refine ⟨h1, ?_, ?_⟩ <;> dsimp <;> omega

lemma earlyStep_inv {PS : Nat} {s : EarlyState} {op : EarlyOp}
    (hwf : EarlyOpWF op) (h : EarlyInv s) : EarlyInv (earlyStep PS s op) := by
  cases op with
  | allocBytes layout => exact earlyAlloc_inv hwf h
  | deallocBytes => exact earlyDealloc_inv h
  | allocPages np ap2 => exact earlyAllocPages_inv h
  | deallocPages => exact h
  | addMemory st sz => exact h

lemma earlyRun_inv {PS : Nat} {s : EarlyState} {ops : List EarlyOp}
    (hwf : ∀ op ∈ ops, EarlyOpWF op) (h : EarlyInv s) : EarlyInv (earlyRun PS s ops) := by
  induction ops generalizing s with
  | nil => exact h
  | cons op rest ih =>
    exact ih (fun o ho => hwf o (List.mem_cons_of_mem _ ho))
      (earlyStep_inv (hwf op (List.mem_cons_self _ _)) h)

/-! ## Invariant preservation for BumpAllocator -/

lemma bumpInit_inv (start size : Nat) (s : BumpState) :
    BumpInv (bumpInit s start size) := by
  simp [bumpInit, BumpInv]

lemma bumpAllocHead_inv {s : BumpState} {layout : Layout}
    (h : BumpInv s) : BumpInv (bumpAllocHead s layout).2 := by
  obtain ⟨h1, h2, h3⟩ := h
  simp only [bumpAllocHead]
  split
  · exact ⟨h1, h2, h3⟩
  · refine ⟨?_, ?_, h3⟩ <;> dsimp <;> omega

lemma bumpAllocTail_inv {s : BumpState} {layout : Layout}
    (h : BumpInv s) : BumpInv (bumpAllocTail s layout).2 := by
  obtain ⟨h1, h2, h3⟩ := h
  simp only [bumpAllocTail]
  split
  · exact ⟨h1, h2, h3⟩
  · refine ⟨h1, ?_, ?_⟩ <;> dsimp <;> omega

lemma bumpAlloc_inv {s : BumpState} {layout : Layout}
    (h : BumpInv s) : BumpInv (bumpAlloc s layout).2 := by
  simp only [bumpAlloc]
  split
  · exact bumpAllocTail_inv h
  · exact bumpAllocHead_inv h

lemma bumpResetTail_inv {s : BumpState} (h : BumpInv s) : BumpInv (bumpResetTail s) := by
  obtain ⟨h1, h2, h3⟩ := h
  exact ⟨h1, le_trans h2 h3, le_refl _⟩

lemma bumpStep_inv {s : BumpState} {op : BumpOp}
    (h : BumpInv s) : BumpInv (bumpStep s op) := by
  cases op with
  | alloc layout => exact bumpAlloc_inv h
  | resetTail => exact bumpResetTail_inv h

lemma bumpRun_inv {s : BumpState} {ops : List BumpOp}
    (h : BumpInv s) : BumpInv (bumpRun s ops) := by
  induction ops generalizing s with
  | nil => exact h
  | cons op rest ih => exact ih (bumpStep_inv h)

/-! ## Counter and region-end preservation for BumpAllocator -/

lemma bumpAllocHead_counts (s : BumpState) (layout : Layout) :
    (bumpAllocHead s layout).2.counts = s.counts := by
  simp only [bumpAllocHead]
  split <;> rfl

lemma bumpAllocTail_counts (s : BumpState) (layout : Layout) :
    (bumpAllocTail s layout).2.counts = s.counts := by
  simp only [bumpAllocTail]
  split <;> rfl

lemma bumpAlloc_counts (s : BumpState) (layout : Layout) :
    (bumpAlloc s layout).2.counts = s.counts + 1 := by
  simp only [bumpAlloc]
  split
  · exact bumpAllocTail_counts _ _
  · exact bumpAllocHead_counts _ _

lemma bumpStep_counts (s : BumpState) (op : BumpOp) :
    (bumpStep s op).counts = s.counts + (if op.isAlloc then 1 else 0) := by
  cases op with
  | alloc layout => simpa using bumpAlloc_counts s layout
  | resetTail => rfl

lemma bumpRun_counts (s : BumpState) (ops : List BumpOp) :
    (bumpRun s ops).counts = s.counts + ops.countP BumpOp.isAlloc := by
  induction ops generalizing s with
  | nil => rfl
  | cons op rest ih =>
    have h1 : bumpRun s (op :: rest) = bumpRun (bumpStep s op) rest := rfl
    rw [h1, ih, bumpStep_counts, List.countP_cons]
    cases op with
    | alloc l =>
      simp only [BumpOp.isAlloc, if_true]
      omega
    | resetTail =>
      simp only [BumpOp.isAlloc, if_false]
      omega

lemma bumpAllocHead_end (s : BumpState) (layout : Layout) :
    (bumpAllocHead s layout).2.end_ = s.end_ := by
  simp only [bumpAllocHead]
  split <;> rfl

lemma bumpAllocTail_end (s : BumpState) (layout : Layout) :
    (bumpAllocTail s layout).2.end_ = s.end_ := by
  simp only [bumpAllocTail]
  split <;> rfl

lemma bumpAlloc_end (s : BumpState) (layout : Layout) :
    (bumpAlloc s layout).2.end_ = s.end_ := by
  simp only [bumpAlloc]
  split
  · exact bumpAllocTail_end _ _
  · exact bumpAllocHead_end _ _

lemma bumpStep_end (s : BumpState) (op : BumpOp) :
    (bumpStep s op).end_ = s.end_ := by
  cases op with
  | alloc layout => exact bumpAlloc_end s layout
  | resetTail => rfl

lemma bumpRun_end (s : BumpState) (ops : List BumpOp) :
    (bumpRun s ops).end_ = s.end_ := by
  induction ops generalizing s with
  | nil => rfl
  | cons op rest ih =>
    have h1 : bumpRun s (op :: rest) = bumpRun (bumpStep s op) rest := rfl
    rw [h1, ih, bumpStep_end]

/-- A call of `BumpAllocator::alloc` taken in a state whose pre-increment
counter selects the tail zone returns `end - size` on success. -/
lemma bumpAlloc_tail_ok {s : BumpState} {layout : Layout} {a : Nat}
    (hc : s.counts % CYCLE % 2 = 0) (h : (bumpAlloc s layout).1 = .ok a) :
    a = s.end_ - layout.size := by
  simp only [bumpAlloc, Nat.add_sub_cancel] at h
  rw [if_pos hc] at h
  simp only [bumpAllocTail] at h
  split at h
  · cases h
  · have h2 : Except.ok (s.end_ - layout.size) = (Except.ok a : Except AllocError Nat) := h
    injection h2 with h3
    exact h3.symm

/-! ## Claim theorems C1-C3 -/

/-- C1: every state of the EarlyAllocator reached from `init(start, size)` by
any sequence of (successful or failing) byte/page allocations, deallocations
and `add_memory` calls satisfies `start ≤ b_pos ≤ p_pos ≤ end`, and every
state of the BumpAllocator reached from `init(start, size)` by any sequence
of `alloc`/`reset_tail` calls satisfies `start ≤ head ≤ tail ≤ end`. -/
theorem C1_cursor_ordering (PS start size : Nat) (eops : List EarlyOp)
    (hwf : ∀ op ∈ eops, EarlyOpWF op) (bops : List BumpOp) :
    EarlyInv (earlyRun PS (earlyInit EarlyState.new start size) eops) ∧
    BumpInv (bumpRun (bumpInit BumpState.new start size) bops) :=
  ⟨earlyRun_inv hwf (earlyInit_inv start size _),
   bumpRun_inv (bumpInit_inv start size _)⟩

theorem C1_cursor_ordering_witness :
    EarlyInv (earlyRun 0x1000 (earlyInit EarlyState.new 0x1000 0x1000)
      [.allocBytes ⟨0x10, 1⟩, .allocPages 1 12, .deallocBytes]) ∧
    BumpInv (bumpRun (bumpInit BumpState.new 0x1000 0x1000)
      [.alloc ⟨0x10, 1⟩, .alloc ⟨0x8, 1⟩, .resetTail]) :=
  C1_cursor_ordering 0x1000 0x1000 0x1000 _ (by decide) _

/-- C2: the k-th call to `BumpAllocator::alloc` after `init` (counting every
`alloc` call, successful or failing; here k = number of prior `alloc` ops + 1)
behaves as a tail-zone placement iff `((k - 1) % 15) % 2 == 0`, and otherwise
as a head-zone placement, on the counter-incremented state. -/
theorem C2_cycle_placement (start size : Nat) (ops : List BumpOp) (layout : Layout) :
    bumpAlloc (bumpRun (bumpInit BumpState.new start size) ops) layout =
      if (ops.countP BumpOp.isAlloc + 1 - 1) % CYCLE % 2 = 0 then
        bumpAllocTail { bumpRun (bumpInit BumpState.new start size) ops with
          counts := ops.countP BumpOp.isAlloc + 1 } layout
      else
        bumpAllocHead { bumpRun (bumpInit BumpState.new start size) ops with
          counts := ops.countP BumpOp.isAlloc + 1 } layout := by
  have hc : (bumpRun (bumpInit BumpState.new start size) ops).counts =
      ops.countP BumpOp.isAlloc := by
    rw [bumpRun_counts]
    simp [bumpInit, BumpState.new]
  simp only [bumpAlloc, hc]

/-- C3: a successful tail-zone `alloc` of size `s` returns `end - s` (computed
from the fixed region end, not the tail cursor); hence two successful tail
allocations, with any `alloc`/`reset_tail` calls in between (no re-init),
return the same address when their sizes are equal, and the later allocation's
range is contained in the earlier one's when its size is no larger. -/
theorem C3_tail_allocation_overlap (s : BumpState) (l1 l2 : Layout) (a1 a2 : Nat)
    (ops : List BumpOp)
    (h1c : s.counts % CYCLE % 2 = 0)
    (h1 : (bumpAlloc s l1).1 = .ok a1)
    (h2c : (bumpRun (bumpAlloc s l1).2 ops).counts % CYCLE % 2 = 0)
    (h2 : (bumpAlloc (bumpRun (bumpAlloc s l1).2 ops) l2).1 = .ok a2)
    (hsz : l2.size ≤ l1.size) :
    a1 = s.end_ - l1.size ∧ a2 = s.end_ - l2.size ∧
    (l2.size = l1.size → a2 = a1) ∧
    a1 ≤ a2 ∧ a2 + l2.size ≤ a1 + l1.size := by
  have e1 : a1 = s.end_ - l1.size := bumpAlloc_tail_ok h1c h1
  have eend : (bumpRun (bumpAlloc s l1).2 ops).end_ = s.end_ := by
    rw [bumpRun_end, bumpAlloc_end]
  have e2 : a2 = s.end_ - l2.size := by
    have h3 := bumpAlloc_tail_ok h2c h2
    rw [eend] at h3
    exact h3
  subst e1
  subst e2
  exact ⟨rfl, rfl, fun hq => by rw [hq], Nat.sub_le_sub_left hsz _, by omega⟩

theorem C3_tail_allocation_overlap_witness :
    (0x1ff0 : Nat) = (bumpInit BumpState.new 0x1000 0x1000).end_ - 0x10 ∧
    (0x1ff0 : Nat) = (bumpInit BumpState.new 0x1000 0x1000).end_ - 0x10 :=
  have h := C3_tail_allocation_overlap (bumpInit BumpState.new 0x1000 0x1000)
    ⟨0x10, 1⟩ ⟨0x10, 1⟩ 0x1ff0 0x1ff0 [.alloc ⟨0x8, 1⟩] rfl rfl rfl rfl (le_refl _)
  ⟨h.1, h.2.1⟩

/-! ## Claim theorems C4-C6 -/

/-- C4: a `LabByteAllocator::dealloc` call with alignment 8 and size `0x180`
sets the data sub-allocator's tail to its region's end, regardless of the
tail's prior position; every other `dealloc` call leaves the data
sub-allocator's tail unchanged. Holds for any metadata sub-allocator. -/
theorem C4_bulk_reset_trigger {μ : Type} (ops : MetaOps μ) (s : LabState μ) (pos : Nat)
    (layout : Layout) :
    (layout.align = 8 → layout.size = 0x180 →
      (labDealloc ops s pos layout).data_pool.tail = s.data_pool.end_) ∧
    (¬(layout.align = 8 ∧ layout.size = 0x180) →
      (labDealloc ops s pos layout).data_pool.tail = s.data_pool.tail) := by
  constructor
  · intro ha hs
    simp [labDealloc, ha, hs, bumpResetTail]
  · intro h
    by_cases ha : layout.align = 8
    · have hs : layout.size ≠ 0x180 := fun hs => h ⟨ha, hs⟩
      simp [labDealloc, ha, hs]
    · simp [labDealloc, ha]

theorem C4_bulk_reset_trigger_witness :
    (labDealloc trivMetaOps labS0 0 ⟨0x180, 8⟩).data_pool.tail = labS0.data_pool.end_ :=
  (C4_bulk_reset_trigger trivMetaOps labS0 0 ⟨0x180, 8⟩).1 rfl rfl

/-- C5 counterexample: the claim says `LabByteAllocator::add_memory` returns
`Err(NoMemory)`, but the source is `unimplemented!()`, which panics; the
embedding of a panicking call is `none`, so no `NoMemory` result is produced
at the concrete input `(0x1000, 0x1000)`. -/
theorem C5_add_memory_counterexample :
    labAddMemory labS0 0x1000 0x1000 = none := rfl

/-- C5 (amended): `EarlyAllocator::add_memory` always returns `NoMemory` and
leaves the state unchanged; `LabByteAllocator::add_memory` never returns at
all (it executes `unimplemented!()`, i.e. panics), rather than returning
`NoMemory`. -/
theorem C5_add_memory_amended :
    (∀ (s : EarlyState) (st sz : Nat), earlyAddMemory s st sz = (.error .NoMemory, s)) ∧
    (∀ (μ : Type) (s : LabState μ) (st sz : Nat), labAddMemory s st sz = none) :=
  ⟨fun _ _ _ => rfl, fun _ _ _ _ => rfl⟩

/-- C6: `LabByteAllocator::alloc` with alignment 8 is served entirely by the
metadata sub-allocator (result and new metadata state are exactly those of the
metadata allocator's `alloc`) and leaves the data sub-allocator unchanged in
every field; any other alignment is served entirely by the data sub-allocator
and leaves the metadata sub-allocator unchanged. -/
theorem C6_alignment_routing {μ : Type} (ops : MetaOps μ) (s : LabState μ) (layout : Layout) :
    (layout.align = 8 →
      (labAlloc ops s layout).2.data_pool = s.data_pool ∧
      (labAlloc ops s layout).1 = (ops.alloc s.meta_pool layout).1 ∧
      (labAlloc ops s layout).2.meta_pool = (ops.alloc s.meta_pool layout).2) ∧
    (layout.align ≠ 8 →
      (labAlloc ops s layout).2.meta_pool = s.meta_pool ∧
      (labAlloc ops s layout).1 = (bumpAlloc s.data_pool layout).1 ∧
      (labAlloc ops s layout).2.data_pool = (bumpAlloc s.data_pool layout).2) := by
  constructor
  · intro ha
    simp [labAlloc, ha]
  · intro ha
    simp [labAlloc, ha]

theorem C6_alignment_routing_witness :
    (labAlloc trivMetaOps labS0 ⟨0x20, 8⟩).2.data_pool = labS0.data_pool :=
  ((C6_alignment_routing trivMetaOps labS0 ⟨0x20, 8⟩).1 rfl).1

/-! ## Claim theorems C7-C10 -/

/-- The concrete scenario of C7: `init(0x1000, 0x1000)` followed by three
byte allocations of size `0x10`. -/
def c7s0 : EarlyState := earlyInit EarlyState.new 0x1000 0x1000

def c7t3 : EarlyState :=
  (earlyAlloc (earlyAlloc (earlyAlloc c7s0 ⟨0x10, 1⟩).2 ⟨0x10, 1⟩).2 ⟨0x10, 1⟩).2

/-- C7: `EarlyAllocator::dealloc` is purely count-based: it is a no-op when
`b_count = 0`, otherwise decrements `b_count` and resets `b_pos` to `start`
exactly when the count reaches zero; concretely, after `init(0x1000, 0x1000)`
and three size-`0x10` byte allocations, two frees change neither `b_pos` nor
`available_bytes()`, and the third resets `b_pos` to `0x1000` with
`used_bytes() = 0`. -/
theorem C7_count_based_dealloc (s : EarlyState) :
    (s.b_count = 0 → earlyDealloc s = s) ∧
    (s.b_count ≠ 0 → (earlyDealloc s).b_count = s.b_count - 1) ∧
    (s.b_count = 1 → (earlyDealloc s).b_pos = s.start) ∧
    (1 < s.b_count → (earlyDealloc s).b_pos = s.b_pos) ∧
    (c7t3.b_count = 3 ∧
     (earlyDealloc c7t3).b_pos = c7t3.b_pos ∧
     earlyAvailableBytes (earlyDealloc c7t3) = earlyAvailableBytes c7t3 ∧
     (earlyDealloc (earlyDealloc c7t3)).b_pos = c7t3.b_pos ∧
     earlyAvailableBytes (earlyDealloc (earlyDealloc c7t3)) = earlyAvailableBytes c7t3 ∧
     (earlyDealloc (earlyDealloc (earlyDealloc c7t3))).b_pos = 0x1000 ∧
     earlyUsedBytes (earlyDealloc (earlyDealloc (earlyDealloc c7t3))) = 0) := by
  refine ⟨?_, ?_, ?_, ?_, ?_⟩
  · intro h
    simp [earlyDealloc, h]
  · intro h
    simp only [earlyDealloc]
    split
    · omega
    · split <;> rfl
  · intro h
    simp [earlyDealloc, h]
  · intro h
    simp only [earlyDealloc]
    split
    · omega
    · split
      · omega
      · rfl
  · decide

theorem C7_count_based_dealloc_witness :
    (earlyDealloc c7t3).b_pos = c7t3.b_pos :=
  (C7_count_based_dealloc c7t3).2.2.2.1 (by decide)

/-- The concrete state of the C8 counterexample and witness:
`init(0x1000, 0x1000)`, so the region ends at `0x2000`. -/
def c8s0 : EarlyState := earlyInit EarlyState.new 0x1000 0x1000

/-- C8 counterexample: with `num_pages = 0` (a legal argument), `alloc_pages`
succeeds and returns the region end `0x2000` itself, which is not strictly
below the region end; so "every successfully returned address lies strictly
below the region end" fails as stated. -/
theorem C8_alloc_pages_counterexample :
    (earlyAllocPages 0x1000 c8s0 0 12).1 = .ok 0x2000 ∧
    ¬((0x2000 : Nat) < c8s0.end_) :=
  ⟨rfl, by decide⟩

/-- C8 (amended): on any state satisfying the cursor invariant,
`alloc_pages(num_pages, align_pow2)` fails with `NoMemory` when
`num_pages * PAGE_SIZE` underflows below `p_pos`, fails with `MemoryOverlap`
when the masked-down `alloc_start` is below `b_pos`, and otherwise commits
`p_pos = alloc_start` and returns it; every successfully returned address is
a multiple of `2 ^ align_pow2`, and — provided the requested size
`num_pages * PAGE_SIZE` is nonzero (the amendment forced by the
`num_pages = 0` counterexample) — lies strictly below the region end. -/
theorem C8_alloc_pages_amended (PS : Nat) (s : EarlyState) (np ap2 : Nat)
    (hinv : EarlyInv s) :
    (s.p_pos < np * PS → earlyAllocPages PS s np ap2 = (.error .NoMemory, s)) ∧
    (np * PS ≤ s.p_pos →
      (alignDown (s.p_pos - np * PS) (2 ^ ap2) < s.b_pos →
        earlyAllocPages PS s np ap2 = (.error .MemoryOverlap, s)) ∧
      (s.b_pos ≤ alignDown (s.p_pos - np * PS) (2 ^ ap2) →
        earlyAllocPages PS s np ap2 =
          (.ok (alignDown (s.p_pos - np * PS) (2 ^ ap2)),
           { s with p_pos := alignDown (s.p_pos - np * PS) (2 ^ ap2) }))) ∧
    (∀ (addr : Nat) (s' : EarlyState), earlyAllocPages PS s np ap2 = (.ok addr, s') →
      addr % 2 ^ ap2 = 0 ∧ s'.p_pos = addr ∧ (0 < np * PS → addr < s.end_)) := by
  obtain ⟨h1, h2, h3⟩ := hinv
  refine ⟨?_, ?_, ?_⟩
  · intro h
    simp only [earlyAllocPages, checked_sub_eq_none h]
  · intro hle
    have hsub : checked_sub s.p_pos (np * PS) = some (s.p_pos - np * PS) := by
      simp [checked_sub, hle]
    constructor
    · intro h
      simp only [earlyAllocPages, hsub]
      rw [if_pos h]
    · intro h
      simp only [earlyAllocPages, hsub]
      rw [if_neg (not_lt.mpr h)]
  · intro addr s' h
    simp only [earlyAllocPages] at h
    split at h
    next heq => simp at h
    next a heq =>
      obtain ⟨ha, hlesub⟩ := checked_sub_some heq
      split at h
      · simp at h
      next hnl =>
        rw [Prod.mk.injEq] at h
        obtain ⟨h4, h5⟩ := h
        rw [Except.ok.injEq] at h4
        have hd : alignDown a (2 ^ ap2) ≤ a := alignDown_le _ _
        have hm : alignDown a (2 ^ ap2) % 2 ^ ap2 = 0 := alignDown_mod _ _
        subst h4
        refine ⟨hm, ?_, ?_⟩
        · rw [← h5]
        · intro hpos
          omega

theorem C8_alloc_pages_amended_witness :
    (0x1000 : Nat) % 2 ^ 12 = 0 ∧
    (earlyAllocPages 0x1000 c8s0 1 12).2.p_pos = 0x1000 ∧
    (0 < 1 * 0x1000 → (0x1000 : Nat) < c8s0.end_) :=
  (C8_alloc_pages_amended 0x1000 c8s0 1 12 (by decide)).2.2 0x1000
    (earlyAllocPages 0x1000 c8s0 1 12).2 rfl

/-- The concrete state of the C9 counterexample and witness:
`init(0x100, 0x10)`, a 16-byte region. -/
def c9s0 : BumpState := bumpInit BumpState.new 0x100 0x10

/-- C9 counterexample: a failing `BumpAllocator::alloc` (size `0x20` does not
fit in the 16-byte region) returns `NoMemory` but still increments the
`counts` field, so allocator state is not left entirely unchanged. -/
theorem C9_failing_alloc_counterexample :
    (bumpAlloc c9s0 ⟨0x20, 1⟩).1 = .error .NoMemory ∧
    (bumpAlloc c9s0 ⟨0x20, 1⟩).2.counts = 1 ∧ c9s0.counts = 0 :=
  ⟨rfl, rfl, rfl⟩

/-- C9 (amended): a failing `EarlyAllocator::alloc` or `alloc_pages` leaves
the whole state unchanged; a failing `BumpAllocator::alloc` leaves all
cursors (`start`, `end`, `head`, `tail`) unchanged but increments `counts`
by one (the amendment forced by the counterexample). -/
theorem C9_failing_alloc_frame_amended :
    (∀ (s : EarlyState) (layout : Layout) (e : AllocError),
      (earlyAlloc s layout).1 = .error e → (earlyAlloc s layout).2 = s) ∧
    (∀ (PS : Nat) (s : EarlyState) (np ap2 : Nat) (e : AllocError),
      (earlyAllocPages PS s np ap2).1 = .error e → (earlyAllocPages PS s np ap2).2 = s) ∧
    (∀ (s : BumpState) (layout : Layout) (e : AllocError),
      (bumpAlloc s layout).1 = .error e →
        (bumpAlloc s layout).2 = { s with counts := s.counts + 1 }) := by
  refine ⟨?_, ?_, ?_⟩
  · intro s layout e h
    simp only [earlyAlloc] at h ⊢
    split at h
    next heq => simp [heq]
    next ae heq =>
      split at h
      next hgt => simp [heq, hgt]
      next hgt => simp at h
  · intro PS s np ap2 e h
    simp only [earlyAllocPages] at h ⊢
    split at h
    next heq => simp [heq]
    next a heq =>
      split at h
      next hlt => simp [heq, hlt]
      next hlt => simp at h
  · intro s layout e h
    simp only [bumpAlloc] at h ⊢
    split at h
    next hcond =>
      rw [if_pos hcond]
      simp only [bumpAllocTail] at h ⊢
      split at h
      next hlt => rw [if_pos hlt]
      next hlt => simp at h
    next hcond =>
      rw [if_neg hcond]
      simp only [bumpAllocHead] at h ⊢
      split at h
      next hlt => rw [if_pos hlt]
      next hlt => simp at h

theorem C9_failing_alloc_frame_witness :
    (bumpAlloc c9s0 ⟨0x20, 1⟩).2 = { c9s0 with counts := c9s0.counts + 1 } :=
  C9_failing_alloc_frame_amended.2.2 c9s0 ⟨0x20, 1⟩ .NoMemory rfl

/-- C10: `LabByteAllocator::dealloc` with any alignment other than 8 is a
complete no-op: the state (both the metadata and the data sub-allocator) is
returned unchanged, for any metadata sub-allocator implementation. -/
theorem C10_nonmeta_dealloc_noop {μ : Type} (ops : MetaOps μ) (s : LabState μ)
    (pos : Nat) (layout : Layout) (h : layout.align ≠ 8) :
    labDealloc ops s pos layout = s := by
  simp [labDealloc, h]

theorem C10_nonmeta_dealloc_noop_witness :
    labDealloc trivMetaOps labS0 0 ⟨0x10, 16⟩ = labS0 :=
  C10_nonmeta_dealloc_noop trivMetaOps labS0 0 ⟨0x10, 16⟩ (by decide)

end AllocSpec
